import Mathlib

/-!
# Verification of the sheessh remote file-management helper

Shallow embedding of `src/sheessh/sheessh.py`.

The remote filesystem is modelled as a function from path strings to an
optional entry kind (file or directory); the metadata commands (`stat`,
`du`) are modelled as functions supplied by the environment, matching the
spec's "Remote Executor" collaborator.  Every operation of the module is
translated into a Lean function that returns its Python result
(`Except Err _` standing for the raised `FileNotFoundError` /
`FileExistsError`) together with the ordered list of remote commands it
issued.  Applying the issued commands to the filesystem (`runTrace`) gives
the resulting remote state.

Python string helpers (`str.split('/')`, `'/'.join`, `os.path.basename`,
`os.path.dirname`, `os.path.normpath`) are translated to executable
functions over `List Char`, following the CPython `posixpath`
implementations.
-/

set_option maxRecDepth 8000

deriving instance DecidableEq for Except

/-- Kind of an entry on the remote filesystem. -/
inductive EntryKind where
  | file
  | dir
deriving DecidableEq, Repr

/-- Errors raised by the module: `FileNotFoundError` and `FileExistsError`. -/
inductive Err where
  | notFound
  | alreadyExists
deriving DecidableEq, Repr

/-- One remote action.  Each constructor corresponds to one command string the
Python module formats and passes to `host.run`, or to one SFTP transfer
(`host.download` / `host.upload`):
`testE p` is `test -e p && echo 0 || echo 1`, `testF p` is the `test -f`
variant, `testD p` the `test -d` variant, `statFile p` is
`stat -c "%s %Y" "p"`, `statMtime p` is `stat -c "%Y" "p"`, `duSb p` is
`du -sb p`, `mkdirP p` is `mkdir -p p`, `touch p` is `touch p`,
`mv a b` is `mv a b`, `rm p` is `rm p`, `rmRf p` is `rm -rf p`,
`rmRfContents p` is `rm -rf p/*`, `truncate p` is `truncate --size 0 p`,
`tar t d` is `tar -a -cf t -C d .`, `get r l` is the SFTP download of
remote `r` to local `l`, and `put l r` the SFTP upload of local `l` to
remote `r`. -/
inductive Cmd where
  | testE (p : String)
  | testF (p : String)
  | testD (p : String)
  | statFile (p : String)
  | statMtime (p : String)
  | duSb (p : String)
  | mkdirP (p : String)
  | touch (p : String)
  | mv (src dest : String)
  | rm (p : String)
  | rmRf (p : String)
  | rmRfContents (p : String)
  | truncate (p : String)
  | tar (tarPath dirPath : String)
  | get (rem loc : String)
  | put (loc rem : String)
deriving DecidableEq, Repr

/-- The remote host state: the filesystem shape plus the numeric answers the
metadata commands produce (`stat -c %s`, `stat -c %Y`, `du -sb`). -/
structure Remote where
  fs : String → Option EntryKind
  fsize : String → Nat
  fmtime : String → Nat
  dsize : String → Nat

/-- Build a `Remote` from a filesystem shape with zeroed metadata. -/
def mkRemote (fs : String → Option EntryKind) : Remote :=
  ⟨fs, fun _ => 0, fun _ => 0, fun _ => 0⟩

/-- Boolean test that `xs` is a prefix of `ys` (over characters). -/
def isPre : List Char → List Char → Bool
  | [], _ => true
  | _ :: _, [] => false
  | a :: as, b :: bs => a == b && isPre as bs

/-- Effect of one remote command on the remote state.  Probe and metadata
commands do not change the filesystem; the mutating commands are given
their straightforward POSIX effect on the path they name (`mkdir -p` and
`touch` are tracked only at their target path; `rm -rf p` removes `p` and
everything under `p/`; `rm -rf p/*` removes everything under `p/` but
keeps `p`; `tar` creates the archive file; `put` creates the uploaded
file). -/
def applyCmd (c : Cmd) (r : Remote) : Remote :=
  match c with
  | .testE _ => r
  | .testF _ => r
  | .testD _ => r
  | .statFile _ => r
  | .statMtime _ => r
  | .duSb _ => r
  | .get _ _ => r
  | .truncate _ => r
  | .mkdirP p => { r with fs := fun q => if q = p then some .dir else r.fs q }
  | .touch p =>
    { r with fs := fun q =>
        if q = p then (if r.fs p = none then some .file else r.fs p) else r.fs q }
  | .mv s d =>
    { r with fs := fun q => if q = s then none else if q = d then r.fs s else r.fs q }
  | .rm p => { r with fs := fun q => if q = p then none else r.fs q }
  | .rmRf p =>
    { r with fs := fun q => if q = p ∨ isPre (p ++ "/").data q.data then none else r.fs q }
  | .rmRfContents p =>
    { r with fs := fun q => if isPre (p ++ "/").data q.data then none else r.fs q }
  | .tar t _ => { r with fs := fun q => if q = t then some .file else r.fs q }
  | .put _ d => { r with fs := fun q => if q = d then some .file else r.fs q }

/-- Apply a list of issued commands in order. -/
def runTrace (r : Remote) (tr : List Cmd) : Remote :=
  tr.foldl (fun s c => applyCmd c s) r

/-- Python `s.split("/")` on the character list of `s`.  Never returns `[]`
(Python's split of the empty string is `[""]`). -/
def splitSlash : List Char → List (List Char)
  | [] => [[]]
  | c :: cs =>
    if c = '/' then [] :: splitSlash cs
    else
      match splitSlash cs with
      | r :: rs => (c :: r) :: rs
      | [] => [[c]]

/-- Python `"/".join(parts)` on character lists. -/
def joinSlash : List (List Char) → List Char
  | [] => []
  | [x] => x
  | x :: xs => x ++ '/' :: joinSlash xs

/-- Whether a character list contains the separator `'/'`. -/
def hasSlash : List Char → Bool
  | [] => false
  | c :: cs => c == '/' || hasSlash cs

/-- Core of CPython `posixpath.basename`: the suffix after the last `'/'`
(`p[p.rfind('/') + 1 :]`). -/
def baseAux : List Char → List Char
  | [] => []
  | c :: cs =>
    if hasSlash cs then baseAux cs
    else if c == '/' then cs
    else c :: cs

/-- `os.path.basename` (POSIX flavour). -/
def basename (p : String) : String :=
  String.mk (baseAux p.data)

/-- Core of CPython `posixpath.dirname`: the slice `p[: p.rfind('/') + 1]`. -/
def dirAux : List Char → List Char
  | [] => []
  | c :: cs =>
    if hasSlash cs then c :: dirAux cs
    else if c == '/' then ['/']
    else []

/-- Strip trailing `'/'` characters (Python `head.rstrip('/')`). -/
def rstripSlash (l : List Char) : List Char :=
  (l.reverse.dropWhile (fun c => c == '/')).reverse

/-- `os.path.dirname` (POSIX flavour): take the slice up to the last slash,
then strip trailing slashes unless the head consists only of slashes. -/
def dirname (p : String) : String :=
  let head := dirAux p.data
  if !head.isEmpty && head.any (fun c => c != '/') then String.mk (rstripSlash head)
  else String.mk head

/-- Component loop of CPython `posixpath.normpath`: drop empty and `.`
components, let `..` pop the previous component except at an unrooted start
or after another `..`. -/
def normAux (initialSlashes : Nat) (acc : List (List Char)) : List (List Char) → List (List Char)
  | [] => acc
  | comp :: rest =>
    if comp = [] ∨ comp = ['.'] then normAux initialSlashes acc rest
    else if comp ≠ ['.', '.'] ∨ (initialSlashes = 0 ∧ acc = [])
        ∨ (acc ≠ [] ∧ acc.getLast? = some ['.', '.']) then
      normAux initialSlashes (acc ++ [comp]) rest
    else
      normAux initialSlashes acc.dropLast rest

/-- `posixpath.normpath` on a non-empty character list. -/
def normpathList (cs : List Char) : List Char :=
  let initialSlashes : Nat :=
    if isPre ['/', '/'] cs && !isPre ['/', '/', '/'] cs then 2
    else if isPre ['/'] cs then 1
    else 0
  let newComps := normAux initialSlashes [] (splitSlash cs)
  let path := List.replicate initialSlashes '/' ++ joinSlash newComps
  if path = [] then ['.'] else path

/-- `os.path.normpath` (POSIX flavour). -/
def normpath (p : String) : String :=
  if p = "" then "." else String.mk (normpathList p.data)

/-- The `if dest[-1] != "/": dest += "/"` normalization used by the
directory move/copy/archive operations.  (Python indexes `[-1]`, so the
empty string is outside the behaviour being modelled.) -/
def ensureTrailingSlash (p : String) : String :=
  if p.data.getLast? == some '/' then p else p ++ "/"

/-- `remote_path_exists`: runs `test -e` and maps the output to a boolean. -/
def remote_path_exists (r : Remote) (p : String) : Bool × List Cmd :=
  ((r.fs p).isSome, [.testE p])

/-- `remote_file_exists`: runs `test -f` and maps the output to a boolean. -/
def remote_file_exists (r : Remote) (p : String) : Bool × List Cmd :=
  (r.fs p == some .file, [.testF p])

/-- `remote_dir_exists`: runs `test -d` and maps the output to a boolean. -/
def remote_dir_exists (r : Remote) (p : String) : Bool × List Cmd :=
  (r.fs p == some .dir, [.testD p])

/-- `remote_is_dir`: first calls `remote_path_exists`; if the path exists it
runs `test -d` and returns the boolean, otherwise it raises
`FileNotFoundError`. -/
def remote_is_dir (r : Remote) (p : String) : Except Err Bool × List Cmd :=
  if (remote_path_exists r p).1 then
    (.ok (r.fs p == some .dir), (remote_path_exists r p).2 ++ [.testD p])
  else
    (.error .notFound, (remote_path_exists r p).2)

/-- `remote_mkdir`: runs `mkdir -p path`. -/
def remote_mkdir (p : String) : List Cmd :=
  [.mkdirP p]

/-- `touch_remote`: `remote_mkdir(os.path.dirname(path))` followed by
`touch path`. -/
def touch_remote (p : String) : List Cmd :=
  remote_mkdir (dirname p) ++ [.touch p]

/-- `rename_remote_file`: checks the source with `remote_path_exists`, forms
`f"{os.path.dirname(file)}/{new_name}"`, then: with `overwrite` it runs
`mv` directly; without `overwrite` it raises `FileExistsError` when
`remote_file_exists` holds of the new path — and otherwise falls through
doing nothing (the Python function has no `else` issuing `mv` on this
path). -/
def rename_remote_file (r : Remote) (file new_name : String) (overwrite : Bool) :
    Except Err Unit × List Cmd :=
  if (remote_path_exists r file).1 then
    let new_path := dirname file ++ "/" ++ new_name
    if overwrite then
      (.ok (), (remote_path_exists r file).2 ++ [.mv file new_path])
    else
      if (remote_file_exists r new_path).1 then
        (.error .alreadyExists, (remote_path_exists r file).2 ++ (remote_file_exists r new_path).2)
      else
        (.ok (), (remote_path_exists r file).2 ++ (remote_file_exists r new_path).2)
  else
    (.error .notFound, (remote_path_exists r file).2)

/-- Claim C1: with the overwrite flag false and the destination absent,
`rename_remote_file` is supposed to issue the underlying `mv`; the code
instead returns successfully having issued only the two probes, so the
source file keeps its old name.  This theorem evaluates the embedded code
at such an input: source `/data/a.txt` exists, `/data/b.txt` does not, and
the call issues no `mv` and changes nothing. -/
theorem rename_skips_mv_without_overwrite :
    (rename_remote_file (mkRemote fun p => if p = "/data/a.txt" then some .file else none)
        "/data/a.txt" "b.txt" false).1 = .ok () ∧
    (rename_remote_file (mkRemote fun p => if p = "/data/a.txt" then some .file else none)
        "/data/a.txt" "b.txt" false).2 = [.testE "/data/a.txt", .testF "/data/b.txt"] ∧
    ∀ q, (runTrace (mkRemote fun p => if p = "/data/a.txt" then some .file else none)
        (rename_remote_file (mkRemote fun p => if p = "/data/a.txt" then some .file else none)
          "/data/a.txt" "b.txt" false).2).fs q
      = (mkRemote fun p => if p = "/data/a.txt" then some .file else none).fs q := by
  refine ⟨by decide, by decide, fun q => ?_⟩
  have h : (rename_remote_file (mkRemote fun p => if p = "/data/a.txt" then some .file else none)
      "/data/a.txt" "b.txt" false).2 = [.testE "/data/a.txt", .testF "/data/b.txt"] := by decide
  rw [h]
  rfl

/-- Local machine environment for `download_file` / `upload_file`:
`os.path.exists`, `os.path.isdir` and `Path.home()`. -/
structure LocalEnv where
  ex : String → Bool
  isdir : String → Bool
  home : String

/-- `pathlib` path components: `splitOn "/"` with empty and `"."` components
dropped (models `PurePosixPath(...).parts` without the root marker, for the
path shapes this module builds). -/
def pathParts (p : String) : List (List Char) :=
  (splitSlash p.data).filter (fun c => ¬(c = [] ∨ c = ['.']))

/-- `Path(p).name`: the final path component, or the empty string. -/
def pathName (p : String) : String :=
  String.mk ((pathParts p).getLastD [])

/-- `str(Path(d, f))` for a plain (relative, slash-free) second argument:
the components of `d` followed by `f`, re-rooted if `d` was absolute. -/
def pathJoin (d f : String) : String :=
  String.mk ((if isPre ['/'] d.data then ['/'] else []) ++ joinSlash (pathParts d ++ [f.data]))

/-- `move_remote_file`: requires `remote_file_exists` on the source; probes
`remote_file_exists` on the destination and raises `FileExistsError` only
when that probe holds and `overwrite` is false; otherwise runs
`touch_remote` on the destination and then `mv`. -/
def move_remote_file (r : Remote) (src dest : String) (overwrite : Bool) :
    Except Err Unit × List Cmd :=
  if (remote_file_exists r src).1 then
    if (remote_file_exists r dest).1 ∧ ¬overwrite then
      (.error .alreadyExists, (remote_file_exists r src).2 ++ (remote_file_exists r dest).2)
    else
      (.ok (), (remote_file_exists r src).2 ++ (remote_file_exists r dest).2
        ++ touch_remote dest ++ [.mv src dest])
  else
    (.error .notFound, (remote_file_exists r src).2)

/-- `move_remote_dir`: first forces a trailing `/` on the destination, then
requires `remote_dir_exists` on the source, raises `FileExistsError` when
`remote_dir_exists` holds of the normalized destination, and otherwise runs
`remote_mkdir` on the destination followed by `mv`. -/
def move_remote_dir (r : Remote) (src dest : String) : Except Err Unit × List Cmd :=
  let dest2 := ensureTrailingSlash dest
  if (remote_dir_exists r src).1 then
    if (remote_dir_exists r dest2).1 then
      (.error .alreadyExists, (remote_dir_exists r src).2 ++ (remote_dir_exists r dest2).2)
    else
      (.ok (), (remote_dir_exists r src).2 ++ (remote_dir_exists r dest2).2
        ++ remote_mkdir dest2 ++ [.mv src dest2])
  else
    (.error .notFound, (remote_dir_exists r src).2)

/-- `download_file`: requires `remote_file_exists` on the remote file;
resolves the destination (default download directory when absent; base
name appended when the destination is an existing directory or a
non-existing path written with a trailing `/` or `\`); then, with
`overwrite`, performs the SFTP download — and without `overwrite` raises
`FileExistsError` unconditionally (the Python `else` does not test whether
the resolved destination exists). -/
def download_file (r : Remote) (le : LocalEnv) (rem_file : String) (dest : Option String)
    (overwrite : Bool) : Except Err Unit × List Cmd :=
  if (remote_file_exists r rem_file).1 then
    let destR : String :=
      match dest with
      | none => pathJoin (pathJoin le.home "Downloads") (pathName rem_file)
      | some d =>
        if !le.ex d then
          if d.data.getLast? == some '/' || d.data.getLast? == some '\\' then
            pathJoin d (pathName rem_file)
          else d
        else
          if le.isdir d then pathJoin d (pathName rem_file) else d
    if overwrite then
      (.ok (), (remote_file_exists r rem_file).2 ++ [.get rem_file destR])
    else
      (.error .alreadyExists, (remote_file_exists r rem_file).2)
  else
    (.error .notFound, (remote_file_exists r rem_file).2)

/-- `upload_file`: requires `os.path.exists` on the local file; when the
remote destination ends with `/` it computes `rem_dest[:-1] +
os.path.basename(file)` (string slice then concatenation, with no
separator re-inserted) and uploads to that path. -/
def upload_file (le : LocalEnv) (file rem_dest : String) : Except Err Unit × List Cmd :=
  if le.ex file then
    let rd :=
      if rem_dest.data.getLast? == some '/' then rem_dest.dropRight 1 ++ basename file
      else rem_dest
    (.ok (), [.put file rd])
  else
    (.error .notFound, [])

/-- `delete_remote_dir_content`: guards with `remote_file_exists` (the
`test -f` probe) and runs `rm -rf path/*` when that probe holds, raising
`FileNotFoundError` otherwise. -/
def delete_remote_dir_content (r : Remote) (p : String) : Except Err Unit × List Cmd :=
  if (remote_file_exists r p).1 then
    (.ok (), (remote_file_exists r p).2 ++ [.rmRfContents p])
  else
    (.error .notFound, (remote_file_exists r p).2)

/-- `zip_remote_dir`: requires `remote_path_exists` and `remote_is_dir`;
forces a trailing `/`, computes
`os.path.basename(os.path.normpath(dir_path)) + ".tar"` and
`"/".join(dir_path.split("/")[:-2])`, joins them with `/` and runs `tar`,
returning the archive path. -/
def zip_remote_dir (r : Remote) (dir_path : String) : Except Err String × List Cmd :=
  if !(remote_path_exists r dir_path).1 then
    (.error .notFound, (remote_path_exists r dir_path).2)
  else
    match remote_is_dir r dir_path with
    | (.error e, t2) => (.error e, (remote_path_exists r dir_path).2 ++ t2)
    | (.ok isd, t2) =>
      if !isd then
        (.error .notFound, (remote_path_exists r dir_path).2 ++ t2)
      else
        let dp := ensureTrailingSlash dir_path
        let tarFname := (basename (normpath dp)).data ++ ".tar".data
        let tarDir := joinSlash ((splitSlash dp.data).dropLast.dropLast)
        let tarPath := String.mk (tarDir ++ '/' :: tarFname)
        (.ok tarPath, (remote_path_exists r dir_path).2 ++ t2 ++ [.tar tarPath dp])

/-- Claim C2: `download_file` is supposed to raise `AlreadyExists` only when
the resolved destination exists and overwrite is disabled, and to download
otherwise.  Evaluating the embedded code: the remote file exists, the
destination `/tmp/out.log` does not exist locally, overwrite is disabled —
and the call still raises `AlreadyExists` and performs no download. -/
theorem download_raises_without_existing_dest :
    (download_file (mkRemote fun p => if p = "/r/a.log" then some .file else none)
        ⟨fun _ => false, fun _ => false, "/home/u"⟩ "/r/a.log" (some "/tmp/out.log") false).1
      = .error .alreadyExists ∧
    (download_file (mkRemote fun p => if p = "/r/a.log" then some .file else none)
        ⟨fun _ => false, fun _ => false, "/home/u"⟩ "/r/a.log" (some "/tmp/out.log") false).2
      = [.testF "/r/a.log"] ∧
    (⟨fun _ => false, fun _ => false, "/home/u"⟩ : LocalEnv).ex "/tmp/out.log" = false := by
  refine ⟨by decide, by decide, rfl⟩

/-- Claim C3: for a remote destination ending in `/`, `upload_file` is
supposed to upload to the destination directory, a separator, and the
local base name.  Evaluating the embedded code with local file `a.txt` and
destination `/data/`: the upload goes to `/dataa.txt` (the slice
`rem_dest[:-1]` removed the separator and none was re-inserted), not to
`/data/a.txt`. -/
theorem upload_drops_separator :
    (upload_file ⟨fun p => p == "a.txt", fun _ => false, "/home/u"⟩ "a.txt" "/data/").1
      = .ok () ∧
    (upload_file ⟨fun p => p == "a.txt", fun _ => false, "/home/u"⟩ "a.txt" "/data/").2
      = [.put "a.txt" "/dataa.txt"] ∧
    "/dataa.txt" ≠ "/data/a.txt" := by
  refine ⟨by decide, by decide, by decide⟩

/-- Claim C4: `delete_remote_dir_content` is supposed to require the
directory-existence probe and then remove the directory's contents.
Evaluating the embedded code on a path that exists as a directory: the
`test -f` guard fails, the call raises `NotFound`, and no removal command
is issued. -/
theorem delete_dir_content_uses_file_probe :
    (mkRemote fun p => if p = "/data" then some .dir else none).fs "/data"
      = some .dir ∧
    (delete_remote_dir_content (mkRemote fun p => if p = "/data" then some .dir else none)
        "/data").1 = .error .notFound ∧
    (delete_remote_dir_content (mkRemote fun p => if p = "/data" then some .dir else none)
        "/data").2 = [.testF "/data"] := by
  refine ⟨rfl, by decide, by decide⟩

/-- Result dictionary of `remote_file_info` / `remote_dir_info`: path, size
in bytes, and last-modified timestamp (`datetime.fromtimestamp` is kept as
the integer timestamp it is built from). -/
structure FileInfo where
  path : String
  size_bytes : Nat
  last_modified : Nat
deriving DecidableEq, Repr

/-- Result dictionary of `remote_path_info`: a `FileInfo` plus the `is_dir`
tag. -/
structure PathInfo where
  path : String
  size_bytes : Nat
  last_modified : Nat
  is_dir : Bool
deriving DecidableEq, Repr

/-- `remote_file_info`: requires `remote_path_exists`; raises
`FileNotFoundError` when `remote_is_dir` holds; otherwise runs
`stat -c "%s %Y"` and returns the parsed size and timestamp. -/
def remote_file_info (r : Remote) (p : String) : Except Err FileInfo × List Cmd :=
  if (remote_path_exists r p).1 then
    match remote_is_dir r p with
    | (.ok false, t2) =>
      (.ok ⟨p, r.fsize p, r.fmtime p⟩, (remote_path_exists r p).2 ++ t2 ++ [.statFile p])
    | (.ok true, t2) => (.error .notFound, (remote_path_exists r p).2 ++ t2)
    | (.error e, t2) => (.error e, (remote_path_exists r p).2 ++ t2)
  else
    (.error .notFound, (remote_path_exists r p).2)

/-- `remote_dir_info`: requires `remote_path_exists` and `remote_is_dir`;
runs `du -sb` and `stat -c "%Y"` and returns the parsed size and
timestamp; raises `FileNotFoundError` when the path is a file or absent. -/
def remote_dir_info (r : Remote) (p : String) : Except Err FileInfo × List Cmd :=
  if (remote_path_exists r p).1 then
    match remote_is_dir r p with
    | (.ok true, t2) =>
      (.ok ⟨p, r.dsize p, r.fmtime p⟩,
        (remote_path_exists r p).2 ++ t2 ++ [.duSb p, .statMtime p])
    | (.ok false, t2) => (.error .notFound, (remote_path_exists r p).2 ++ t2)
    | (.error e, t2) => (.error e, (remote_path_exists r p).2 ++ t2)
  else
    (.error .notFound, (remote_path_exists r p).2)

/-- `remote_path_info`: requires `remote_path_exists`; dispatches on
`remote_is_dir` to `remote_dir_info` or `remote_file_info` and tags the
returned dictionary with `is_dir`. -/
def remote_path_info (r : Remote) (p : String) : Except Err PathInfo × List Cmd :=
  if (remote_path_exists r p).1 then
    match remote_is_dir r p with
    | (.ok true, t2) =>
      match remote_dir_info r p with
      | (.ok d, t3) =>
        (.ok ⟨d.path, d.size_bytes, d.last_modified, true⟩,
          (remote_path_exists r p).2 ++ t2 ++ t3)
      | (.error e, t3) => (.error e, (remote_path_exists r p).2 ++ t2 ++ t3)
    | (.ok false, t2) =>
      match remote_file_info r p with
      | (.ok d, t3) =>
        (.ok ⟨d.path, d.size_bytes, d.last_modified, false⟩,
          (remote_path_exists r p).2 ++ t2 ++ t3)
      | (.error e, t3) => (.error e, (remote_path_exists r p).2 ++ t2 ++ t3)
    | (.error e, t2) => (.error e, (remote_path_exists r p).2 ++ t2)
  else
    (.error .notFound, (remote_path_exists r p).2)

theorem beq_file_dir : (EntryKind.file == EntryKind.dir) = false := rfl

theorem beq_dir_dir : (EntryKind.dir == EntryKind.dir) = true := rfl

theorem beq_some_file_dir :
    ((some EntryKind.file : Option EntryKind) == some EntryKind.dir) = false := rfl

theorem beq_some_dir_dir :
    ((some EntryKind.dir : Option EntryKind) == some EntryKind.dir) = true := rfl

theorem beq_some_file_file :
    ((some EntryKind.file : Option EntryKind) == some EntryKind.file) = true := rfl

theorem beq_some_dir_file :
    ((some EntryKind.dir : Option EntryKind) == some EntryKind.file) = false := rfl

/-- Claim C6: `remote_file_info` and `remote_dir_info` are mutually
exclusive — the former fails with `NotFound` on absent paths and
directories, the latter on absent paths and files — and
`remote_path_info` succeeds whenever either does, tagging the result with
`is_dir`, failing with `NotFound` exactly when the path is absent. -/
theorem info_queries_exclusive (r : Remote) (p : String) :
    (r.fs p = none ∨ r.fs p = some .dir → (remote_file_info r p).1 = .error .notFound) ∧
    (r.fs p = none ∨ r.fs p = some .file → (remote_dir_info r p).1 = .error .notFound) ∧
    (¬((∃ i, (remote_file_info r p).1 = .ok i) ∧ (∃ i, (remote_dir_info r p).1 = .ok i))) ∧
    (∀ i, (remote_file_info r p).1 = .ok i →
      (remote_path_info r p).1 = .ok ⟨i.path, i.size_bytes, i.last_modified, false⟩) ∧
    (∀ i, (remote_dir_info r p).1 = .ok i →
      (remote_path_info r p).1 = .ok ⟨i.path, i.size_bytes, i.last_modified, true⟩) ∧
    ((remote_path_info r p).1 = .error .notFound ↔ r.fs p = none) := by
  rcases h : r.fs p with _ | k
  · simp [remote_file_info, remote_dir_info, remote_path_info, remote_is_dir,
      remote_path_exists, h]
  · cases k <;>
      simp [remote_file_info, remote_dir_info, remote_path_info, remote_is_dir,
        remote_path_exists, h, beq_file_dir, beq_dir_dir]

/-- Witness for C6 at a concrete input: a remote with a directory at `/d`. -/
theorem info_queries_exclusive_witness :
    (remote_path_info (mkRemote fun p => if p = "/d" then some .dir else none) "/d").1
      = .ok ⟨"/d", 0, 0, true⟩ := by
  have h := (info_queries_exclusive
    (mkRemote fun p => if p = "/d" then some .dir else none) "/d").2.2.2.2.1
  exact h ⟨"/d", 0, 0⟩ (by decide)

/-- Claim C5's counterexample: the `remote_is_dir` probe does raise.  On a
remote where `/x` is absent, `remote_is_dir` returns the
`FileNotFoundError` outcome instead of a boolean. -/
theorem probe_is_dir_raises_on_absent :
    (remote_is_dir (mkRemote fun _ => none) "/x").1 = .error .notFound := by
  decide

/-- Claim C5 (amended): `remote_path_exists`, `remote_file_exists` and
`remote_dir_exists` map the remote test commands to booleans and never
raise; `remote_is_dir` returns a boolean for every existing path but
raises `NotFound` when the probed path does not exist. -/
theorem probes_boolean_amended (r : Remote) (p : String) :
    (remote_path_exists r p).1 = (r.fs p).isSome ∧
    (remote_file_exists r p).1 = (r.fs p == some .file) ∧
    (remote_dir_exists r p).1 = (r.fs p == some .dir) ∧
    ((r.fs p).isSome = true → (remote_is_dir r p).1 = .ok (r.fs p == some .dir)) ∧
    (r.fs p = none → (remote_is_dir r p).1 = .error .notFound) := by
  refine ⟨rfl, rfl, rfl, fun h => ?_, fun h => ?_⟩
  · simp [remote_is_dir, remote_path_exists, h]
  · simp [remote_is_dir, remote_path_exists, h]

/-- Witness for the amended C5 at a concrete input: `/d` exists as a
directory, so `remote_is_dir` returns a boolean there. -/
theorem probes_boolean_amended_witness :
    (remote_is_dir (mkRemote fun p => if p = "/d" then some .dir else none) "/d").1
      = .ok ((mkRemote fun p => if p = "/d" then some .dir else none).fs "/d"
          == some .dir) := by
  exact (probes_boolean_amended
    (mkRemote fun p => if p = "/d" then some .dir else none) "/d").2.2.2.1 (by decide)

/-- Whether a command is one of the three existence/type probes on `p`. -/
def isProbeOf (p : String) : Cmd → Bool
  | .testE q => q == p
  | .testF q => q == p
  | .testD q => q == p
  | _ => false

/-- Helper for `destProbedBeforeMv`: walk the trace keeping the commands
already issued, and require that each `mv` was preceded by a probe of its
destination. -/
def destProbedAux (seen : List Cmd) : List Cmd → Bool
  | [] => true
  | c :: rest =>
    (match c with
      | .mv _ d => seen.any (isProbeOf d)
      | _ => true) && destProbedAux (seen ++ [c]) rest

/-- Every `mv` in the trace is preceded by an existence/type probe of its
destination path. -/
def destProbedBeforeMv (tr : List Cmd) : Bool :=
  destProbedAux [] tr

/-- Helper for `srcProbedBeforeMv`. -/
def srcProbedAux (seen : List Cmd) : List Cmd → Bool
  | [] => true
  | c :: rest =>
    (match c with
      | .mv s _ => seen.any (isProbeOf s)
      | _ => true) && srcProbedAux (seen ++ [c]) rest

/-- Every `mv` in the trace is preceded by an existence/type probe of its
source path. -/
def srcProbedBeforeMv (tr : List Cmd) : Bool :=
  srcProbedAux [] tr

/-- Claim C9: when the source exists as a directory and a directory already
exists at the slash-normalized destination, `move_remote_dir` fails with
`AlreadyExists`, issues only the two `test -d` probes (no `mkdir`, no
`mv`), and leaves the remote filesystem unchanged. -/
theorem move_dir_dest_exists_no_change (r : Remote) (src dest : String)
    (hs : r.fs src = some .dir) (hd : r.fs (ensureTrailingSlash dest) = some .dir) :
    (move_remote_dir r src dest).1 = .error .alreadyExists ∧
    (move_remote_dir r src dest).2 = [.testD src, .testD (ensureTrailingSlash dest)] ∧
    ∀ q, (runTrace r (move_remote_dir r src dest).2).fs q = r.fs q := by
  have htr : (move_remote_dir r src dest).2
      = [.testD src, .testD (ensureTrailingSlash dest)] := by
    simp [move_remote_dir, remote_dir_exists, hs, hd, beq_some_dir_dir]
  refine ⟨?_, htr, fun q => ?_⟩
  · simp [move_remote_dir, remote_dir_exists, hs, hd, beq_some_dir_dir]
  · rw [htr]; rfl

/-- Witness for C9 at a concrete input: `/a` is a directory and a directory
already sits at the normalized destination `/b/`. -/
theorem move_dir_dest_exists_no_change_witness :
    (move_remote_dir
        (mkRemote fun p => if p = "/a" ∨ p = "/b/" then some .dir else none) "/a" "/b").1
      = .error .alreadyExists :=
  (move_dir_dest_exists_no_change
    (mkRemote fun p => if p = "/a" ∨ p = "/b/" then some .dir else none) "/a" "/b"
    (by decide) (by decide)).1

/-- Claim C10: when the source exists as a file and the destination path
holds a directory, `move_remote_file` never raises `AlreadyExists` even
with overwrite disabled, because its destination-occupied check is the
file-existence probe `test -f`, which fails on directories; it proceeds to
issue `mkdir -p`, `touch` and `mv`. -/
theorem move_file_onto_dir_proceeds (r : Remote) (src dest : String)
    (hs : r.fs src = some .file) (hd : r.fs dest = some .dir) :
    (move_remote_file r src dest false).1 = .ok () ∧
    (move_remote_file r src dest false).2
      = [.testF src, .testF dest, .mkdirP (dirname dest), .touch dest, .mv src dest] := by
  constructor <;>
    simp [move_remote_file, remote_file_exists, touch_remote, remote_mkdir, hs, hd,
      beq_some_file_file, beq_some_dir_file]

/-- Witness for C10 at a concrete input: file `/a.txt`, directory `/d`. -/
theorem move_file_onto_dir_proceeds_witness :
    (move_remote_file
        (mkRemote fun p =>
          if p = "/a.txt" then some .file else if p = "/d" then some .dir else none)
        "/a.txt" "/d" false).1 = .ok () :=
  (move_file_onto_dir_proceeds
    (mkRemote fun p =>
      if p = "/a.txt" then some .file else if p = "/d" then some .dir else none)
    "/a.txt" "/d" (by decide) (by decide)).1

/-- Claim C8's counterexample: with the overwrite flag true,
`rename_remote_file` issues `mv` without ever probing its computed
destination — on a remote where `/data/a.txt` exists, the issued trace
contains an `mv` with no preceding probe of the destination. -/
theorem rename_overwrite_skips_dest_probe :
    destProbedBeforeMv
      (rename_remote_file (mkRemote fun p => if p = "/data/a.txt" then some .file else none)
        "/data/a.txt" "b.txt" true).2 = false ∧
    (rename_remote_file (mkRemote fun p => if p = "/data/a.txt" then some .file else none)
        "/data/a.txt" "b.txt" true).2
      = [.testE "/data/a.txt", .mv "/data/a.txt" "/data/b.txt"] := by
  refine ⟨by decide, by decide⟩

/-- Claim C8 (amended): `move_remote_file` probes both its source and its
destination (with `test -f`) before issuing `mv`, for every value of the
overwrite flag; `rename_remote_file` probes its computed destination
before any `mv` only when overwrite is false — with overwrite true it
issues `mv` right after the source probe, without probing the
destination. -/
theorem mutation_probe_discipline_amended (r : Remote) (src dest file new_name : String)
    (ow : Bool) (hf : (r.fs file).isSome = true) :
    destProbedBeforeMv (move_remote_file r src dest ow).2 = true ∧
    srcProbedBeforeMv (move_remote_file r src dest ow).2 = true ∧
    destProbedBeforeMv (rename_remote_file r file new_name false).2 = true ∧
    (rename_remote_file r file new_name true).2
      = [.testE file, .mv file (dirname file ++ "/" ++ new_name)] := by
  refine ⟨?_, ?_, ?_, ?_⟩
  · cases ow <;>
      by_cases h1 : r.fs src = some EntryKind.file <;>
      by_cases h2 : r.fs dest = some EntryKind.file <;>
      simp [move_remote_file, remote_file_exists, h1, h2, destProbedBeforeMv,
        destProbedAux, isProbeOf, touch_remote, remote_mkdir]
  · cases ow <;>
      by_cases h1 : r.fs src = some EntryKind.file <;>
      by_cases h2 : r.fs dest = some EntryKind.file <;>
      simp [move_remote_file, remote_file_exists, h1, h2, srcProbedBeforeMv,
        srcProbedAux, isProbeOf, touch_remote, remote_mkdir]
  · by_cases h1 : (r.fs file).isSome = true <;>
      by_cases h2 : r.fs (dirname file ++ "/" ++ new_name) = some EntryKind.file <;>
      simp [rename_remote_file, remote_path_exists, remote_file_exists, h1, h2,
        destProbedBeforeMv, destProbedAux, isProbeOf]
  · simp [rename_remote_file, remote_path_exists, hf]

/-- Witness for the amended C8 at a concrete input. -/
theorem mutation_probe_discipline_amended_witness :
    (rename_remote_file (mkRemote fun p => if p = "/data/c.txt" then some .file else none)
        "/data/c.txt" "d.txt" true).2
      = [.testE "/data/c.txt",
          .mv "/data/c.txt" (dirname "/data/c.txt" ++ "/" ++ "d.txt")] :=
  (mutation_probe_discipline_amended
    (mkRemote fun p => if p = "/data/c.txt" then some .file else none)
    "/s" "/t" "/data/c.txt" "d.txt" true (by decide)).2.2.2

theorem splitSlash_ne_nil (l : List Char) : splitSlash l ≠ [] := by
  cases l with
  | nil => simp [splitSlash]
  | cons c cs =>
    simp only [splitSlash]
    split
    · simp
    · split <;> simp

theorem splitSlash_append (x y : List Char) :
    splitSlash (x ++ '/' :: y) = splitSlash x ++ splitSlash y := by
  induction x with
  | nil => simp [splitSlash]
  | cons c cs ih =>
    by_cases hc : c = '/'
    · subst hc
      simp [splitSlash, ih]
    · rcases h : splitSlash cs with _ | ⟨r, rs⟩
      · exact absurd h (splitSlash_ne_nil cs)
      · simp [splitSlash, hc, ih, h]

theorem splitSlash_noSlash (b : List Char) (hb : hasSlash b = false) : splitSlash b = [b] := by
  induction b with
  | nil => rfl
  | cons c cs ih =>
    simp only [hasSlash, Bool.or_eq_false_iff, beq_eq_false_iff_ne, ne_eq] at hb
    simp [splitSlash, hb.1, ih hb.2]

theorem joinSlash_splitSlash (l : List Char) : joinSlash (splitSlash l) = l := by
  induction l with
  | nil => rfl
  | cons c cs ih =>
    rcases h : splitSlash cs with _ | ⟨r, rs⟩
    · exact absurd h (splitSlash_ne_nil cs)
    · rw [h] at ih
      by_cases hc : c = '/'
    
      · subst hc
        rw [show splitSlash ('/' :: cs) = [] :: splitSlash cs from by simp [splitSlash], h]
        cases rs with
        | nil => simp only [joinSlash] at ih ⊢; simp [ih]
        | cons r2 rs2 => simp only [joinSlash] at ih ⊢; simp [ih]
      · rw [show splitSlash (c :: cs) = (c :: r) :: rs from by simp [splitSlash, hc, h]]
        cases rs with
        | nil => simp only [joinSlash] at ih ⊢; simp [ih]
        | cons r2 rs2 =>
          simp only [joinSlash] at ih ⊢
          rw [List.cons_append, ih]

theorem hasSlash_append (x y : List Char) :
    hasSlash (x ++ y) = (hasSlash x || hasSlash y) := by
  induction x with
  | nil => simp [hasSlash]
  | cons c cs ih => simp [hasSlash, ih, Bool.or_assoc]

theorem baseAux_after_slash (x y : List Char) (hy : hasSlash y = false) :
    baseAux (x ++ '/' :: y) = y := by
  induction x with
  | nil => simp [baseAux, hy]
  | cons c cs ih =>
    have hsl : hasSlash (cs ++ '/' :: y) = true := by
      rw [hasSlash_append]
      simp [hasSlash]
    simp [baseAux, hsl, ih]

theorem baseAux_noSlash (y : List Char) (hy : hasSlash y = false) : baseAux y = y := by
  cases y with
  | nil => rfl
  | cons c cs =>
    simp only [hasSlash, Bool.or_eq_false_iff, beq_eq_false_iff_ne, ne_eq] at hy
    simp [baseAux, hy.1, hy.2]

theorem baseAux_replicate (n : Nat) (y : List Char) (hy : hasSlash y = false) :
    baseAux (List.replicate n '/' ++ y) = y := by
  cases n with
  | zero => simpa using baseAux_noSlash y hy
  | succ m =>
    rw [List.replicate_succ', List.append_assoc, List.singleton_append]
    exact baseAux_after_slash _ y hy

theorem joinSlash_concat (x : List (List Char)) (y : List Char) (hx : x ≠ []) :
    joinSlash (x ++ [y]) = joinSlash x ++ '/' :: y := by
  induction x with
  | nil => exact absurd rfl hx
  | cons a as ih =>
    cases as with
    | nil => simp [joinSlash]
    | cons b bs =>
      have h2 := ih (by simp)
      simp only [List.cons_append, joinSlash] at h2 ⊢
      simp [h2, List.append_assoc]

theorem normAux_append (k : Nat) (acc : List (List Char)) (xs ys : List (List Char)) :
    normAux k acc (xs ++ ys) = normAux k (normAux k acc xs) ys := by
  induction xs generalizing acc with
  | nil => rfl
  | cons comp rest ih =>
    simp only [List.cons_append, normAux]
    split
    · exact ih acc
    · split
      · exact ih (acc ++ [comp])
      · exact ih acc.dropLast

theorem dropLast2_concat (l : List (List Char)) (a b : List Char) :
    ((l ++ [a, b]).dropLast).dropLast = l := by
  rw [show l ++ [a, b] = (l ++ [a]) ++ [b] by simp]
  rw [List.dropLast_concat, List.dropLast_concat]

theorem hasSlash_getLast (y : List Char) (hy : hasSlash y = false) :
    y.getLast? ≠ some '/' := by
  induction y with
  | nil => simp
  | cons c cs ih =>
    simp only [hasSlash, Bool.or_eq_false_iff, beq_eq_false_iff_ne, ne_eq] at hy
    cases cs with
    | nil => simpa using hy.1
    | cons d ds =>
      rw [List.getLast?_cons_cons]
      exact ih hy.2

theorem isPre_append_cancel (l a b : List Char) : isPre (l ++ a) (l ++ b) = isPre a b := by
  induction l with
  | nil => rfl
  | cons c cs ih => simp [isPre, ih]

theorem strData_inj (a b : String) (h : a.data = b.data) : a = b :=
  congrArg String.mk h

theorem strData_append (a b : String) : (a ++ b).data = a.data ++ b.data := by
  cases a
  cases b
  rfl

theorem strData_ne_nil (a : String) (h : a ≠ "") : a.data ≠ [] := by
  intro hd
  exact h (strData_inj a "" hd)

theorem slash_data : ("/" : String).data = ['/'] := rfl

theorem tar_data : (".tar" : String).data = ['.', 't', 'a', 'r'] := rfl

theorem normAux_last (k : Nat) (D B : List Char) (hB : B ≠ []) (hB1 : B ≠ ['.'])
    (hB2 : B ≠ ['.', '.']) (hBs : hasSlash B = false) :
    normAux k [] (splitSlash (D ++ '/' :: (B ++ ['/'])))
      = normAux k [] (splitSlash D) ++ [B] := by
  rw [show (B ++ ['/'] : List Char) = B ++ '/' :: [] from rfl]
  rw [splitSlash_append, splitSlash_append, splitSlash_noSlash B hBs]
  rw [show splitSlash ([] : List Char) = [[]] from rfl]
  rw [normAux_append]
  simp [normAux, hB, hB1, hB2]

theorem baseAux_pathcore (k : Nat) (N : List (List Char)) (B : List Char)
    (hB : B ≠ []) (hBs : hasSlash B = false) :
    baseAux (if List.replicate k '/' ++ joinSlash (N ++ [B]) = [] then ['.']
      else List.replicate k '/' ++ joinSlash (N ++ [B])) = B := by
  cases N with
  | nil =>
    have hne : List.replicate k '/' ++ joinSlash ([] ++ [B]) ≠ [] := by
      simp [joinSlash, hB]
    rw [if_neg hne]
    simpa [joinSlash] using baseAux_replicate k B hBs
  | cons M Ms =>
    rw [joinSlash_concat (M :: Ms) B (by simp)]
    have hne : List.replicate k '/' ++ (joinSlash (M :: Ms) ++ '/' :: B) ≠ [] := by simp
    rw [if_neg hne, ← List.append_assoc]
    exact baseAux_after_slash _ B hBs

theorem baseAux_normpathList (D B : List Char) (hB : B ≠ []) (hB1 : B ≠ ['.'])
    (hB2 : B ≠ ['.', '.']) (hBs : hasSlash B = false) :
    baseAux (normpathList (D ++ '/' :: (B ++ ['/']))) = B := by
  simp only [normpathList]
  rw [normAux_last _ D B hB hB1 hB2 hBs]
  exact baseAux_pathcore _ _ B hB hBs

theorem ensureTrailingSlash_concat (d b p : String) (hb : b.data ≠ [])
    (hbs : hasSlash b.data = false)
    (hp : p = d ++ "/" ++ b ∨ p = d ++ "/" ++ b ++ "/") :
    (ensureTrailingSlash p).data = d.data ++ '/' :: (b.data ++ ['/']) := by
  rcases hp with rfl | rfl
  · have hlast : (d ++ "/" ++ b).data.getLast? = b.data.getLast? := by
      rw [show (d ++ "/" ++ b).data = (d ++ "/").data ++ b.data from strData_append _ _]
      exact List.getLast?_append_of_ne_nil _ hb
    have hcond : ¬(((d ++ "/" ++ b).data.getLast? == some '/') = true) := by
      rw [hlast]
      simp only [beq_iff_eq]
      exact hasSlash_getLast b.data hbs
    rw [ensureTrailingSlash, if_neg hcond]
    simp [strData_append, slash_data]
  · have hlast : (d ++ "/" ++ b ++ "/").data.getLast? = some '/' := by
      rw [show (d ++ "/" ++ b ++ "/").data = (d ++ "/" ++ b).data ++ ['/'] from
        strData_append _ _]
      rw [List.getLast?_append_of_ne_nil _ (by simp)]
      rfl
    have hcond : (((d ++ "/" ++ b ++ "/").data.getLast? == some '/') = true) := by
      rw [hlast]; rfl
    rw [ensureTrailingSlash, if_pos hcond]
    simp [strData_append, slash_data]

/-- Claim C7's counterexample: for the bare relative directory name `logs`
(no separator), `zip_remote_dir` returns the absolute path `/logs.tar`
rather than the sibling path `logs.tar` one level above the directory. -/
theorem zip_relative_dir_not_sibling :
    (zip_remote_dir (mkRemote fun p => if p = "logs" then some .dir else none) "logs").1
      = .ok "/logs.tar" ∧ ("/logs.tar" : String) ≠ "logs.tar" := by
  refine ⟨by decide, by decide⟩

/-- Claim C7 (amended): for an input path of the form `d/b` — optionally
with a trailing separator — whose final component `b` is non-empty,
separator-free and neither `.` nor `..`, and which exists as a directory,
`zip_remote_dir` returns the sibling archive path `d/b.tar`, and neither
the directory itself nor any path under it is modified.  (For a bare
relative name with no separator the code instead returns an absolute
`/name.tar` path, per the counterexample.) -/
theorem zip_archive_sibling_amended (r : Remote) (d b p : String)
    (hb : b ≠ "") (hbs : hasSlash b.data = false) (hb1 : b ≠ ".") (hb2 : b ≠ "..")
    (hp : p = d ++ "/" ++ b ∨ p = d ++ "/" ++ b ++ "/")
    (hdir : r.fs p = some EntryKind.dir) :
    (zip_remote_dir r p).1 = .ok (d ++ "/" ++ b ++ ".tar") ∧
    (runTrace r (zip_remote_dir r p).2).fs p = r.fs p ∧
    ∀ q, isPre (d ++ "/" ++ b ++ "/").data q.data = true →
      (runTrace r (zip_remote_dir r p).2).fs q = r.fs q := by
  have hex : (r.fs p).isSome = true := by rw [hdir]; rfl
  have hbd : b.data ≠ [] := strData_ne_nil b hb
  have hb1d : b.data ≠ ['.'] := by
    intro h0
    exact hb1 (strData_inj b "." (by rw [h0]))
  have hb2d : b.data ≠ ['.', '.'] := by
    intro h0
    exact hb2 (strData_inj b ".." (by rw [h0]))
  have hdp : (ensureTrailingSlash p).data = d.data ++ '/' :: (b.data ++ ['/']) :=
    ensureTrailingSlash_concat d b p hbd hbs hp
  have hdpne : ensureTrailingSlash p ≠ "" := by
    intro h0
    have h1 := congrArg String.data h0
    rw [hdp] at h1
    simp at h1
  have hbn : (basename (normpath (ensureTrailingSlash p))).data = b.data := by
    rw [normpath, if_neg hdpne]
    show baseAux (normpathList ((ensureTrailingSlash p).data)) = b.data
    rw [hdp]
    exact baseAux_normpathList d.data b.data hbd hb1d hb2d hbs
  have htd : joinSlash ((splitSlash (ensureTrailingSlash p).data).dropLast.dropLast)
      = d.data := by
    rw [hdp, show (b.data ++ ['/'] : List Char) = b.data ++ '/' :: [] from rfl,
      splitSlash_append, splitSlash_append, splitSlash_noSlash b.data hbs]
    rw [show splitSlash ([] : List Char) = [[]] from rfl]
    rw [show (splitSlash d.data ++ ([b.data] ++ [[]]) : List (List Char))
      = splitSlash d.data ++ [b.data, []] from by simp]
    rw [dropLast2_concat, joinSlash_splitSlash]
  have hzip : zip_remote_dir r p
      = (.ok (String.mk (d.data ++ '/' :: (b.data ++ ".tar".data))),
          [.testE p, .testE p, .testD p,
            .tar (String.mk (d.data ++ '/' :: (b.data ++ ".tar".data)))
              (ensureTrailingSlash p)]) := by
    simp only [zip_remote_dir, remote_path_exists, remote_is_dir, hex, hdir,
      beq_some_dir_dir, Bool.not_true, Bool.false_eq_true, if_false, if_true, htd, hbn]
    simp
  have hpT : p ≠ String.mk (d.data ++ '/' :: (b.data ++ ".tar".data)) := by
    intro h0
    have h1 := congrArg (fun s => s.data.length) h0
    rcases hp with rfl | rfl <;>
      simp [strData_append, slash_data, tar_data] at h1
  refine ⟨?_, ?_, ?_⟩
  · rw [hzip]
    show Except.ok _ = Except.ok _
    refine congrArg Except.ok (strData_inj _ _ ?_)
    simp [strData_append, slash_data, tar_data]
  · rw [hzip]
    simp only [runTrace, List.foldl_cons, List.foldl_nil, applyCmd]
    simp [hpT]
  · intro q hq
    have hqT : q ≠ String.mk (d.data ++ '/' :: (b.data ++ ".tar".data)) := by
      intro h0
      subst h0
      have e1 : (d ++ "/" ++ b ++ "/").data = (d.data ++ '/' :: b.data) ++ ['/'] := by
        simp [strData_append, slash_data]
      have e2 : (String.mk (d.data ++ '/' :: (b.data ++ ".tar".data))).data
          = (d.data ++ '/' :: b.data) ++ ('.' :: ['t', 'a', 'r']) := by
        simp [tar_data]
      rw [e1, e2, isPre_append_cancel] at hq
      simp [isPre] at hq
    rw [hzip]
    simp only [runTrace, List.foldl_cons, List.foldl_nil, applyCmd]
    simp [hqT]

/-- Witness for the amended C7 at the spec's own example: archiving the
directory `/data/logs/` returns the sibling path `/data/logs.tar`. -/
theorem zip_archive_sibling_amended_witness :
    (zip_remote_dir (mkRemote fun p => if p = "/data/logs/" then some .dir else none)
        "/data/logs/").1 = .ok ("/data" ++ "/" ++ "logs" ++ ".tar") :=
  (zip_archive_sibling_amended
    (mkRemote fun p => if p = "/data/logs/" then some .dir else none)
    "/data" "logs" "/data/logs/" (by decide) (by decide) (by decide) (by decide)
    (Or.inr (by decide)) (by decide)).1
